import Mathlib

/-!
# webauthn-api: ceremony orchestration over an in-memory user directory

Shallow embedding of `user.go`, `storer.go`, `webauthn.go` and `main.go`.

* Go maps with string keys are total lookups `String → Option V`.
* Go pointers are `Option` values (`none` is the nil pointer); dereferencing
  `none` aborts the handler, recorded in `Outcome.panicked`.
* Go `error` values are represented by their message text.
* The ceremony engine (interface `WebAuthn`) and the standard-library
  services the handlers call (JSON codec, random source) are parameters.
* The mutable directory is threaded explicitly: every handler returns the
  store it leaves behind, together with the list of engine calls it made.
-/

set_option autoImplicit false

namespace WebAuthnApi

/-! ## Library types -/

/-- Go error value, represented by the text its Error method returns. -/
abbrev GoError := String

/-- Go map with string keys. -/
abbrev GoMap (V : Type) := String → Option V

/-- The empty map, as produced by make. -/
def GoMap.empty {V : Type} : GoMap V := fun _ => none

/-- Map assignment m[k] = v. -/
def GoMap.set {V : Type} (m : GoMap V) (k : String) (v : V) : GoMap V :=
  fun k2 => if k2 = k then some v else m k2

/-- Session state blob of the ceremony engine (webauthn.SessionData), opaque to this program. -/
structure SessionData where
  raw : List Nat
deriving DecidableEq, Repr

/-- Credential record of the ceremony engine (webauthn.Credential), opaque to this program. -/
structure Credential where
  raw : List Nat
deriving DecidableEq, Repr

/-- Registration challenge options (protocol.CredentialCreation), opaque to this program. -/
structure CredentialCreation where
  raw : List Nat
deriving DecidableEq, Repr

/-- Login challenge options (protocol.CredentialAssertion), opaque to this program. -/
structure CredentialAssertion where
  raw : List Nat
deriving DecidableEq, Repr

/-! ## user.go -/

/-- User record of user.go. -/
structure User where
  id : List Nat
  name : String
  displayName : String
  session : Option SessionData
  lastLoginSession : Option SessionData
  credentials : List Credential
deriving DecidableEq, Repr

/-- The zero value User{}. -/
def User.zero : User :=
  { id := [], name := "", displayName := "", session := none, lastLoginSession := none,
    credentials := [] }

/-! ## webauthn.go: request types and collaborators -/

/-- Body of a registration begin request. -/
structure RegistrationRequest where
  Name : String
  DisplayName : String
deriving DecidableEq, Repr

/-- Body of a login begin request. -/
structure LoginRequest where
  Name : String
deriving DecidableEq, Repr

/-- Standard-library services used by the handlers, taken as parameters:
crypto/rand.Read on a buffer of the given length, encoding/json decoding of the
two request bodies, JSON quoting of a string, and JSON marshalling of the two
option objects. -/
structure Lib where
  randRead : Nat → Except GoError (List Nat)
  decodeRegistrationRequest : String → Except GoError RegistrationRequest
  decodeLoginRequest : String → Except GoError LoginRequest
  jsonString : String → String
  marshalCreation : CredentialCreation → Except GoError String
  marshalAssertion : CredentialAssertion → Except GoError String

/-- Method generateID of user.go: fill a 32-byte buffer from the random source. -/
def User.generateID (lib : Lib) (u : User) : User × Option GoError :=
  match lib.randRead 32 with
  | .error err => (u, some err)
  | .ok id => ({ u with id := id }, none)

/-- Constructor NewUser of user.go. -/
def NewUser (lib : Lib) (name displayName : String) : User × Option GoError :=
  let user : User := { User.zero with name := name, displayName := displayName }
  match user.generateID lib with
  | (_, some err) => (User.zero, some err)
  | (user, none) => (user, none)

/-! ## storer.go -/

/-- The error ErrUserNotFound. -/
def ErrUserNotFound : GoError := "user not found"

/-- In-memory directory of storer.go. -/
structure InMemoryStorer where
  users : GoMap User

/-- Function NewStorer. -/
def NewStorer : InMemoryStorer := { users := GoMap.empty }

/-- Method GetUser: exact-match lookup. -/
def InMemoryStorer.GetUser (s : InMemoryStorer) (name : String) : User × Option GoError :=
  match s.users name with
  | none => (User.zero, some ErrUserNotFound)
  | some user => (user, none)

/-- Method SaveUser: assignment under the key user.name; the error is always nil. -/
def InMemoryStorer.SaveUser (s : InMemoryStorer) (user : User) : InMemoryStorer × Option GoError :=
  ({ users := s.users.set user.name user }, none)

/-! ## net/http and net/url values -/

/-- The part of url.URL the program touches. -/
structure URL where
  Path : String
  RawQuery : String
deriving DecidableEq, Repr

/-- The part of http.Request the program touches. -/
structure Request where
  Method : String
  URL : URL
  Body : String
deriving DecidableEq, Repr

def MethodOptions : String := "OPTIONS"
def StatusOK : Nat := 200
def StatusBadRequest : Nat := 400
def StatusNotFound : Nat := 404
def StatusInternalServerError : Nat := 500

/-- Cut a character list at the first occurrence of c (strings.Cut with a one-byte separator):
the part before, the part after, and whether c was found. -/
def cutAt (c : Char) : List Char → List Char × List Char × Bool
  | [] => ([], [], false)
  | x :: xs =>
    if x = c then ([], xs, true)
    else
      let r := cutAt c xs
      (x :: r.1, r.2.1, r.2.2)

/-- Value of a hexadecimal digit. -/
def unhex (c : Char) : Option Nat :=
  if 48 ≤ c.toNat ∧ c.toNat ≤ 57 then some (c.toNat - 48)
  else if 97 ≤ c.toNat ∧ c.toNat ≤ 102 then some (c.toNat - 97 + 10)
  else if 65 ≤ c.toNat ∧ c.toNat ≤ 70 then some (c.toNat - 65 + 10)
  else none

/-- Model of url.QueryUnescape: percent triplets become the byte they denote (a byte is
rendered as the character with that code, exact for ASCII), plus becomes a space, and a
malformed percent escape is an error. -/
def queryUnescape : List Char → Option (List Char)
  | [] => some []
  | '%' :: a :: b :: rest =>
    match unhex a, unhex b, queryUnescape rest with
    | some x, some y, some t => some (Char.ofNat (16 * x + y) :: t)
    | _, _, _ => none
  | '%' :: _ => none
  | '+' :: rest => (queryUnescape rest).map (fun t => ' ' :: t)
  | c :: rest => (queryUnescape rest).map (fun t => c :: t)

/-- Split a character list at every occurrence of c. -/
def splitAll (c : Char) : List Char → List (List Char)
  | [] => [[]]
  | x :: xs =>
    if x = c then [] :: splitAll c xs
    else
      match splitAll c xs with
      | [] => [[x]]
      | p :: ps => (x :: p) :: ps

/-- One round of the ParseQuery loop on one ampersand-separated pair: a pair holding a
semicolon, an empty pair and a pair that fails to unescape contribute nothing; any other pair
is cut at its first equals sign. -/
def parsePair (key : List Char) : Option (String × String) :=
  if ';' ∈ key then none
  else if key = [] then none
  else
    let kv := cutAt '=' key
    match queryUnescape kv.1, queryUnescape kv.2.1 with
    | some k, some v => some (String.mk k, String.mk v)
    | _, _ => none

/-- Model of url.ParseQuery, with the error dropped as URL.Query does. The result lists the
key/value pairs in order of appearance. -/
def parseQuery (query : String) : List (String × String) :=
  (splitAll '&' query.data).filterMap parsePair

/-- Method URL.Query: the parsed RawQuery. -/
def URL.Query (u : URL) : List (String × String) :=
  parseQuery u.RawQuery

/-- Method Values.Get: the first value stored under the key, or the empty string. -/
def Values.Get (v : List (String × String)) (key : String) : String :=
  match v.find? (fun kv => kv.1 = key) with
  | some kv => kv.2
  | none => ""

/-- Response writer of main.go. -/
structure responseWriter where
  headers : GoMap (List String)
  statusCode : Nat
  body : String

/-- Method Write of responseWriter: the body is replaced by the bytes written. -/
def responseWriter.Write (rw : responseWriter) (body : String) : responseWriter :=
  { rw with body := body }

/-- Method WriteHeader of responseWriter. -/
def responseWriter.WriteHeader (rw : responseWriter) (statusCode : Nat) : responseWriter :=
  { rw with statusCode := statusCode }

/-- Header().Set on the writer; every key the program uses is already in canonical form. -/
def responseWriter.SetHeader (rw : responseWriter) (key value : String) : responseWriter :=
  { rw with headers := rw.headers.set key [value] }

/-- Function http.Error: plain-text content type, the status code, then the message and a
newline. -/
def httpError (w : responseWriter) (error : String) (code : Nat) : responseWriter :=
  let w := w.SetHeader "Content-Type" "text/plain; charset=utf-8"
  let w := w.SetHeader "X-Content-Type-Options" "nosniff"
  let w := w.WriteHeader code
  w.Write (error ++ "\n")

/-! ## webauthn.go -/

/-- Ceremony engine: the four operations of interface WebAuthn. A result is the error, or
the returned values with each pointer as an Option. -/
structure WebAuthn where
  BeginRegistration : User → Except GoError (CredentialCreation × Option SessionData)
  FinishRegistration : User → SessionData → Request → Except GoError (Option Credential)
  BeginLogin : User → Except GoError (CredentialAssertion × Option SessionData)
  FinishLogin : User → SessionData → Request → Except GoError (Option Credential)

/-- Record of one call made to the ceremony engine, with its arguments. -/
inductive EngineCall where
  | beginRegistration (user : User)
  | finishRegistration (user : User) (session : SessionData) (response : Request)
  | beginLogin (user : User)
  | finishLogin (user : User) (session : SessionData) (response : Request)
deriving DecidableEq, Repr

/-- The handler value: the directory and the engine. -/
structure WebAuthnHandler where
  storer : InMemoryStorer
  webauthn : WebAuthn

/-- What a route handler leaves behind: the response writer, the directory, the engine calls
made, and whether a nil pointer dereference aborted it. -/
structure Outcome where
  w : responseWriter
  storer : InMemoryStorer
  calls : List EngineCall
  panicked : Bool

def setCorsHeaders (w : responseWriter) : responseWriter :=
  let w := w.SetHeader "Access-Control-Allow-Origin" "*"
  let w := w.SetHeader "Access-Control-Allow-Methods" "POST, OPTIONS"
  w.SetHeader "Access-Control-Allow-Headers" "Content-Type"

/-- Function handleOptionsRequest: the writer afterwards and the boolean result. -/
def handleOptionsRequest (w : responseWriter) (r : Request) : responseWriter × Bool :=
  if r.Method = MethodOptions then (w.WriteHeader StatusOK, true) else (w, false)

/-- Function respondWithError: the status code, then the JSON object with the single member
error and a newline. -/
def respondWithError (lib : Lib) (w : responseWriter) (code : Nat) (message : String) :
    responseWriter :=
  (w.WriteHeader code).Write ("\x7b\"error\":" ++ lib.jsonString message ++ "\x7d\n")

/-- Encoder call json.NewEncoder(w).Encode(v) for a value with the given marshalling result:
one Write of the text and a newline, or nothing when marshalling fails. -/
def jsonEncode (w : responseWriter) (marshalled : Except GoError String) : responseWriter :=
  match marshalled with
  | .ok text => w.Write (text ++ "\n")
  | .error _ => w

def WebAuthnHandler.BeginRegistration (lib : Lib) (h : WebAuthnHandler) (w : responseWriter)
    (r : Request) : Outcome :=
  let w := setCorsHeaders w
  if r.Method = MethodOptions then
    ⟨w.WriteHeader StatusOK, h.storer, [], false⟩
  else
    match lib.decodeRegistrationRequest r.Body with
    | .error _ =>
      ⟨respondWithError lib w StatusBadRequest "invalid request body", h.storer, [], false⟩
    | .ok request =>
      match NewUser lib request.Name request.DisplayName with
      | (_, some _) =>
        ⟨respondWithError lib w StatusInternalServerError "failed to generate user ID",
          h.storer, [], false⟩
      | (user, none) =>
        match h.webauthn.BeginRegistration user with
        | .error _ =>
          ⟨respondWithError lib w StatusInternalServerError "failed to begin registration",
            h.storer, [.beginRegistration user], false⟩
        | .ok (options, session) =>
          let user1 : User := { user with session := session }
          match h.storer.SaveUser user1 with
          | (st, some _) =>
            ⟨respondWithError lib w StatusInternalServerError "failed to save user session",
              st, [.beginRegistration user], false⟩
          | (st, none) =>
            ⟨jsonEncode (w.WriteHeader StatusOK) (lib.marshalCreation options), st,
              [.beginRegistration user], false⟩

def WebAuthnHandler.FinishRegistration (lib : Lib) (h : WebAuthnHandler) (w : responseWriter)
    (r : Request) : Outcome :=
  let w := setCorsHeaders w
  if r.Method = MethodOptions then
    ⟨w.WriteHeader StatusOK, h.storer, [], false⟩
  else
    let name := Values.Get r.URL.Query "userName"
    match h.storer.GetUser name with
    | (_, some _) =>
      ⟨respondWithError lib w StatusBadRequest "user not found", h.storer, [], false⟩
    | (user, none) =>
      match user.session with
      | none => ⟨w, h.storer, [], true⟩
      | some session =>
        match h.webauthn.FinishRegistration user session r with
        | .error err =>
          ⟨respondWithError lib w StatusBadRequest err, h.storer,
            [.finishRegistration user session r], false⟩
        | .ok none => ⟨w, h.storer, [.finishRegistration user session r], true⟩
        | .ok (some credential) =>
          let user1 : User := { user with credentials := user.credentials ++ [credential] }
          match h.storer.SaveUser user1 with
          | (st, some _) =>
            ⟨respondWithError lib w StatusInternalServerError "failed to save user credentials",
              st, [.finishRegistration user session r], false⟩
          | (st, none) =>
            ⟨(w.WriteHeader StatusOK).Write "Registration Success", st,
              [.finishRegistration user session r], false⟩

def WebAuthnHandler.BeginLogin (lib : Lib) (h : WebAuthnHandler) (w : responseWriter)
    (r : Request) : Outcome :=
  let w := setCorsHeaders w
  match handleOptionsRequest w r with
  | (w, true) => ⟨w, h.storer, [], false⟩
  | (w, false) =>
    match lib.decodeLoginRequest r.Body with
    | .error _ => ⟨httpError w "Invalid request body" StatusBadRequest, h.storer, [], false⟩
    | .ok request =>
      match h.storer.GetUser request.Name with
      | (_, some _) => ⟨httpError w "User not found" StatusNotFound, h.storer, [], false⟩
      | (user, none) =>
        match h.webauthn.BeginLogin user with
        | .error _ =>
          ⟨httpError w "Error initiating login" StatusInternalServerError, h.storer,
            [.beginLogin user], false⟩
        | .ok (options, session) =>
          let user1 : User := { user with lastLoginSession := session }
          match h.storer.SaveUser user1 with
          | (st, some _) =>
            ⟨httpError w "Error saving user session" StatusInternalServerError, st,
              [.beginLogin user], false⟩
          | (st, none) =>
            ⟨jsonEncode (w.WriteHeader StatusOK) (lib.marshalAssertion options), st,
              [.beginLogin user], false⟩

def WebAuthnHandler.FinishLogin (h : WebAuthnHandler) (w : responseWriter) (r : Request) :
    Outcome :=
  let w := setCorsHeaders w
  match handleOptionsRequest w r with
  | (w, true) => ⟨w, h.storer, [], false⟩
  | (w, false) =>
    let name := Values.Get r.URL.Query "userName"
    match h.storer.GetUser name with
    | (_, some _) => ⟨httpError w "User not found" StatusNotFound, h.storer, [], false⟩
    | (user, none) =>
      let session := user.lastLoginSession
      match session with
      | none => ⟨w, h.storer, [], true⟩
      | some sess =>
        match h.webauthn.FinishLogin user sess r with
        | .error _ =>
          ⟨httpError w "Error finishing login" StatusInternalServerError, h.storer,
            [.finishLogin user sess r], false⟩
        | .ok none => ⟨w, h.storer, [.finishLogin user sess r], true⟩
        | .ok (some credential) =>
          let user1 : User := { user with credentials := user.credentials ++ [credential] }
          match h.storer.SaveUser user1 with
          | (st, some _) =>
            ⟨httpError w "Error updating user credentials" StatusInternalServerError, st,
              [.finishLogin user sess r], false⟩
          | (st, none) =>
            ⟨(w.WriteHeader StatusOK).Write "Login Success", st,
              [.finishLogin user sess r], false⟩

/-! ## main.go -/

/-- The part of events.APIGatewayProxyRequest the claims are about. -/
structure APIGatewayProxyRequest where
  Path : String
  HTTPMethod : String
  QueryStringParameters : GoMap String
  Body : String

/-- The part of events.APIGatewayProxyResponse the handler fills. -/
structure APIGatewayProxyResponse where
  StatusCode : Nat
  Body : String
  Headers : GoMap String

/-- Function setupRoutes: the route table over the process-wide directory and engine. -/
def setupRoutes (lib : Lib) (storer : InMemoryStorer) (webAuthn : WebAuthn) :
    GoMap (responseWriter → Request → Outcome) :=
  let h : WebAuthnHandler := { storer := storer, webauthn := webAuthn }
  let routes : GoMap (responseWriter → Request → Outcome) := GoMap.empty
  let routes := routes.set "/webauthn/registration/begin" (h.BeginRegistration lib)
  let routes := routes.set "/webauthn/registration/finish" (h.FinishRegistration lib)
  let routes := routes.set "/webauthn/login/begin" (h.BeginLogin lib)
  routes.set "/webauthn/login/finish" h.FinishLogin

/-- What the entry point leaves behind: the response (none when the route handler was aborted
by a nil dereference), the directory and the engine calls made. -/
structure GatewayOutcome where
  response : Option APIGatewayProxyResponse
  storer : InMemoryStorer
  calls : List EngineCall

/-- Function handler of main.go, over the process-wide directory and engine. -/
def handler (lib : Lib) (storer : InMemoryStorer) (webAuthn : WebAuthn)
    (req : APIGatewayProxyRequest) : GatewayOutcome :=
  let routes := setupRoutes lib storer webAuthn
  match routes req.Path with
  | some route =>
    let w : responseWriter := { headers := GoMap.empty, statusCode := 0, body := "" }
    let r : Request :=
      { Method := req.HTTPMethod, URL := { Path := req.Path, RawQuery := "" }, Body := req.Body }
    let o := route w r
    if o.panicked then
      { response := none, storer := o.storer, calls := o.calls }
    else
      { response := some
          { StatusCode := o.w.statusCode, Body := o.w.body,
            Headers := (GoMap.empty : GoMap String).set "Content-Type" "application/json" },
        storer := o.storer, calls := o.calls }
  | none =>
    { response := some
        { StatusCode := StatusNotFound, Body := "\x7b\"message\": \"not found\"\x7d",
          Headers := (GoMap.empty : GoMap String).set "Content-Type" "application/json" },
      storer := storer, calls := [] }

/-- Directory invariant: every record is stored under its own name. SaveUser is the only
write to the map and writes under user.name, so every reachable directory satisfies it. -/
def InMemoryStorer.WF (s : InMemoryStorer) : Prop :=
  ∀ k u, s.users k = some u → u.name = k

/-! ## Sample values used by the concrete evaluations -/

def sampleLib : Lib :=
  { randRead := fun n => .ok (List.replicate n 7)
    decodeRegistrationRequest := fun body =>
      if body = "alice" then .ok { Name := "alice", DisplayName := "Alice A" }
      else if body = "\x7b\x7d" then .ok { Name := "", DisplayName := "" }
      else .error "invalid character"
    decodeLoginRequest := fun body =>
      if body = "alice" then .ok { Name := "alice" } else .error "invalid character"
    jsonString := fun s => "\"" ++ s ++ "\""
    marshalCreation := fun _ => .ok "creation"
    marshalAssertion := fun _ => .ok "assertion" }

def sampleEngine : WebAuthn :=
  { BeginRegistration := fun _ => .ok (⟨[1]⟩, some ⟨[11]⟩)
    FinishRegistration := fun _ _ _ => .ok (some ⟨[21]⟩)
    BeginLogin := fun _ => .ok (⟨[2]⟩, some ⟨[12]⟩)
    FinishLogin := fun _ _ _ => .ok (some ⟨[22]⟩) }

def rejectingEngine : WebAuthn :=
  { BeginRegistration := fun _ => .error "begin registration refused"
    FinishRegistration := fun _ _ _ => .error "challenge mismatch"
    BeginLogin := fun _ => .error "begin login refused"
    FinishLogin := fun _ _ _ => .error "signature mismatch" }

def emptyWriter : responseWriter := { headers := GoMap.empty, statusCode := 0, body := "" }

def postRegistrationBegin : Request :=
  { Method := "POST", URL := { Path := "/webauthn/registration/begin", RawQuery := "" },
    Body := "alice" }

def postRegistrationFinish : Request :=
  { Method := "POST",
    URL := { Path := "/webauthn/registration/finish", RawQuery := "userName=alice" },
    Body := "attestation" }

def postLoginBegin : Request :=
  { Method := "POST", URL := { Path := "/webauthn/login/begin", RawQuery := "" },
    Body := "alice" }

def postLoginFinish : Request :=
  { Method := "POST", URL := { Path := "/webauthn/login/finish", RawQuery := "userName=alice" },
    Body := "assertion" }

/-- A second random source, so that two user creations get different ids. -/
def sampleLib2 : Lib := { sampleLib with randRead := fun n => .ok (List.replicate n 9) }

/-- Directory after a registration begin request for alice on the empty directory. -/
def afterRegisterBegin : Outcome :=
  WebAuthnHandler.BeginRegistration sampleLib ⟨NewStorer, sampleEngine⟩ emptyWriter
    postRegistrationBegin

/-- Directory after the matching registration finish request. -/
def afterRegisterFinish : Outcome :=
  WebAuthnHandler.FinishRegistration sampleLib ⟨afterRegisterBegin.storer, sampleEngine⟩
    emptyWriter postRegistrationFinish

/-- Directory after a login begin request for alice that follows the registration begin. -/
def afterLoginBegin : Outcome :=
  WebAuthnHandler.BeginLogin sampleLib ⟨afterRegisterBegin.storer, sampleEngine⟩ emptyWriter
    postLoginBegin

/-- The record stored for alice by the registration begin request. -/
def aliceBegun : User :=
  { id := List.replicate 32 7, name := "alice", displayName := "Alice A",
    session := some ⟨[11]⟩, lastLoginSession := none, credentials := [] }

/-- Directory after alice, fully registered, sends a second registration begin request. -/
def afterSecondRegisterBegin : Outcome :=
  WebAuthnHandler.BeginRegistration sampleLib2 ⟨afterRegisterFinish.storer, sampleEngine⟩
    emptyWriter postRegistrationBegin

/-- Gateway event for a registration finish request that names alice in its query string. -/
def gatewayRegistrationFinish : APIGatewayProxyRequest :=
  { Path := "/webauthn/registration/finish", HTTPMethod := "POST",
    QueryStringParameters := (GoMap.empty : GoMap String).set "userName" "alice",
    Body := "attestation" }

/-- Gateway event for a login finish request that names alice in its query string. -/
def gatewayLoginFinish : APIGatewayProxyRequest :=
  { Path := "/webauthn/login/finish", HTTPMethod := "POST",
    QueryStringParameters := (GoMap.empty : GoMap String).set "userName" "alice",
    Body := "assertion" }

/-- Gateway event for a registration begin request whose body is the empty JSON object, which
decodes to the empty name. -/
def gatewayRegistrationBeginEmpty : APIGatewayProxyRequest :=
  { Path := "/webauthn/registration/begin", HTTPMethod := "POST",
    QueryStringParameters := GoMap.empty, Body := "\x7b\x7d" }

/-- Apply a sequence of SaveUser calls, oldest first. -/
def saveAll (s : InMemoryStorer) : List User → InMemoryStorer
  | [] => s
  | u :: us => saveAll (s.SaveUser u).1 us

/-! ## The directory -/

theorem InMemoryStorer.ext_users {a b : InMemoryStorer} (h : ∀ k, a.users k = b.users k) :
    a = b := by
  cases a; cases b
  simp only [InMemoryStorer.mk.injEq]
  exact funext h

theorem saveUser_users_self (s : InMemoryStorer) (u : User) :
    (s.SaveUser u).1.users u.name = some u := by
  simp [InMemoryStorer.SaveUser, GoMap.set]

theorem saveUser_users_other (s : InMemoryStorer) (u : User) (m : String) (hm : m ≠ u.name) :
    (s.SaveUser u).1.users m = s.users m := by
  simp [InMemoryStorer.SaveUser, GoMap.set, hm]

theorem newStorer_wf : NewStorer.WF := by
  intro k u h
  simp [NewStorer, GoMap.empty] at h

theorem saveUser_wf (s : InMemoryStorer) (u : User) (hs : s.WF) : (s.SaveUser u).1.WF := by
  intro k v h
  by_cases hk : k = u.name
  · subst hk
    rw [saveUser_users_self] at h
    exact (Option.some.inj h) ▸ rfl
  · rw [saveUser_users_other s u k hk] at h
    exact hs k v h

theorem saveAll_users_none (us : List User) (s : InMemoryStorer) (m : String) :
    (saveAll s us).users m = none ↔ s.users m = none ∧ ∀ u ∈ us, u.name ≠ m := by
  induction us generalizing s with
  | nil => simp [saveAll]
  | cons u us ih =>
    rw [saveAll, ih]
    by_cases hm : m = u.name
    · subst hm
      simp [saveUser_users_self]
    · rw [saveUser_users_other s u m hm]
      simp [Ne.symm hm]

theorem getUser_notFound_iff (s : InMemoryStorer) (m : String) :
    s.GetUser m = (User.zero, some ErrUserNotFound) ↔ s.users m = none := by
  unfold InMemoryStorer.GetUser
  cases h : s.users m <;> simp

/-- C8: InMemoryStorer is an upsert store keyed by name. SaveUser returns no error; afterwards
GetUser of the saved name returns exactly the saved record with no error, and GetUser of any
other name returns what it returned before. Starting from NewStorer, GetUser of a name returns
the zero record with ErrUserNotFound exactly when no record with that exact name was saved. -/
theorem storer_upsert_by_name :
    (∀ (s : InMemoryStorer) (u : User),
      (s.SaveUser u).2 = none ∧
      (s.SaveUser u).1.GetUser u.name = (u, none) ∧
      ∀ m : String, m ≠ u.name → (s.SaveUser u).1.GetUser m = s.GetUser m) ∧
    (∀ (us : List User) (m : String),
      (saveAll NewStorer us).GetUser m = (User.zero, some ErrUserNotFound) ↔
        ∀ u ∈ us, u.name ≠ m) := by
  refine ⟨fun s u => ⟨rfl, ?_, fun m hm => ?_⟩, fun us m => ?_⟩
  · simp [InMemoryStorer.GetUser, saveUser_users_self]
  · simp [InMemoryStorer.GetUser, saveUser_users_other s u m hm]
  · rw [getUser_notFound_iff, saveAll_users_none]
    simp [NewStorer, GoMap.empty]

/-- Witness for C8 on the sample directory: bob was never saved, alice was. -/
theorem storer_upsert_by_name_witness :
    afterRegisterFinish.storer.GetUser "bob" = NewStorer.GetUser "bob" ∧
    (saveAll NewStorer [{ User.zero with name := "alice" }]).GetUser "bob" =
      (User.zero, some ErrUserNotFound) :=
  ⟨(storer_upsert_by_name.1 afterRegisterBegin.storer
      { id := List.replicate 32 7, name := "alice", displayName := "Alice A",
        session := some ⟨[11]⟩, lastLoginSession := none, credentials := [⟨[21]⟩] }).2.2
      "bob" (by decide),
    (storer_upsert_by_name.2 [{ User.zero with name := "alice" }] "bob").2 (by decide)⟩

/-- C9: SaveUser is idempotent and last-writer-wins: saving the same record twice leaves the
same directory as saving it once, and saving two records of the same name leaves the same
directory as saving only the second. -/
theorem saveUser_idempotent (s : InMemoryStorer) (u u1 u2 : User) (hname : u1.name = u2.name) :
    ((s.SaveUser u).1.SaveUser u).1 = (s.SaveUser u).1 ∧
    ((s.SaveUser u1).1.SaveUser u2).1 = (s.SaveUser u2).1 := by
  constructor
  · apply InMemoryStorer.ext_users
    intro k
    by_cases hk : k = u.name <;> simp [InMemoryStorer.SaveUser, GoMap.set, hk]
  · apply InMemoryStorer.ext_users
    intro k
    by_cases hk : k = u2.name <;> simp [InMemoryStorer.SaveUser, GoMap.set, hk, hname]

/-- Witness for C9: two records named alice saved onto the sample directory. -/
theorem saveUser_idempotent_witness :
    ((afterRegisterBegin.storer.SaveUser { User.zero with name := "alice" }).1.SaveUser
        { User.zero with name := "alice", displayName := "A" }).1 =
      (afterRegisterBegin.storer.SaveUser
        { User.zero with name := "alice", displayName := "A" }).1 :=
  (saveUser_idempotent afterRegisterBegin.storer User.zero
    { User.zero with name := "alice" } { User.zero with name := "alice", displayName := "A" }
    rfl).2

/-! ## Route handlers -/

/-- C4: for a name that is not stored, FinishRegistration answers 400 (JSON error "user not
found"), BeginLogin answers 404 and FinishLogin answers 404; none of them calls the engine,
none is aborted, and the directory afterwards equals the directory before. The requests are
ceremony requests (method other than OPTIONS) that name n: as the userName query parameter for
the finish steps, as the decoded body for BeginLogin. -/
theorem unknown_user_rejected (lib : Lib) (e : WebAuthn) (st : InMemoryStorer)
    (w : responseWriter) (n : String) (r1 r2 r3 : Request)
    (hn : st.users n = none)
    (hm1 : r1.Method ≠ MethodOptions) (hq1 : Values.Get r1.URL.Query "userName" = n)
    (hm2 : r2.Method ≠ MethodOptions) (hd2 : lib.decodeLoginRequest r2.Body = .ok ⟨n⟩)
    (hm3 : r3.Method ≠ MethodOptions) (hq3 : Values.Get r3.URL.Query "userName" = n) :
    ((WebAuthnHandler.FinishRegistration lib ⟨st, e⟩ w r1).w.statusCode = 400 ∧
      (WebAuthnHandler.FinishRegistration lib ⟨st, e⟩ w r1).w.body =
        "\x7b\"error\":" ++ lib.jsonString "user not found" ++ "\x7d\n" ∧
      (WebAuthnHandler.FinishRegistration lib ⟨st, e⟩ w r1).calls = [] ∧
      (WebAuthnHandler.FinishRegistration lib ⟨st, e⟩ w r1).panicked = false ∧
      (WebAuthnHandler.FinishRegistration lib ⟨st, e⟩ w r1).storer = st) ∧
    ((WebAuthnHandler.BeginLogin lib ⟨st, e⟩ w r2).w.statusCode = 404 ∧
      (WebAuthnHandler.BeginLogin lib ⟨st, e⟩ w r2).calls = [] ∧
      (WebAuthnHandler.BeginLogin lib ⟨st, e⟩ w r2).panicked = false ∧
      (WebAuthnHandler.BeginLogin lib ⟨st, e⟩ w r2).storer = st) ∧
    ((WebAuthnHandler.FinishLogin ⟨st, e⟩ w r3).w.statusCode = 404 ∧
      (WebAuthnHandler.FinishLogin ⟨st, e⟩ w r3).calls = [] ∧
      (WebAuthnHandler.FinishLogin ⟨st, e⟩ w r3).panicked = false ∧
      (WebAuthnHandler.FinishLogin ⟨st, e⟩ w r3).storer = st) := by
  refine ⟨?_, ?_, ?_⟩
  · simp [WebAuthnHandler.FinishRegistration, hm1, hq1, InMemoryStorer.GetUser, hn,
      respondWithError, responseWriter.Write, responseWriter.WriteHeader, StatusBadRequest]
  · simp [WebAuthnHandler.BeginLogin, handleOptionsRequest, hm2, hd2, InMemoryStorer.GetUser,
      hn, httpError, responseWriter.Write, responseWriter.WriteHeader, responseWriter.SetHeader,
      StatusNotFound]
  · simp [WebAuthnHandler.FinishLogin, handleOptionsRequest, hm3, hq3, InMemoryStorer.GetUser,
      hn, httpError, responseWriter.Write, responseWriter.WriteHeader, responseWriter.SetHeader,
      StatusNotFound]

/-- Witness for C4: alice is unknown to the empty directory. -/
theorem unknown_user_rejected_witness :
    (WebAuthnHandler.FinishRegistration sampleLib ⟨NewStorer, sampleEngine⟩ emptyWriter
        postRegistrationFinish).w.statusCode = 400 ∧
    (WebAuthnHandler.BeginLogin sampleLib ⟨NewStorer, sampleEngine⟩ emptyWriter
        postLoginBegin).w.statusCode = 404 ∧
    (WebAuthnHandler.FinishLogin ⟨NewStorer, sampleEngine⟩ emptyWriter
        postLoginFinish).w.statusCode = 404 :=
  have h := unknown_user_rejected sampleLib sampleEngine NewStorer emptyWriter "alice"
    postRegistrationFinish postLoginBegin postLoginFinish rfl (by decide) (by decide)
    (by decide) rfl (by decide) (by decide)
  ⟨h.1.1, h.2.1.1, h.2.2.1⟩

/-- C5: when user n is stored with a pending challenge of the matching kind and the engine
rejects the finish step with an error, FinishRegistration answers 400 with the JSON error
object carrying the engine message and FinishLogin answers 500; in both cases the directory
afterwards equals the directory before, so the credential list and the pending challenge are
as they were. -/
theorem engine_failure_leaves_directory (lib : Lib) (e : WebAuthn) (st st2 : InMemoryStorer)
    (w : responseWriter) (n n2 : String) (u u2 : User) (sr sl : SessionData)
    (msg1 msg2 : GoError) (r1 r2 : Request)
    (hu : st.users n = some u)
    (hm1 : r1.Method ≠ MethodOptions) (hq1 : Values.Get r1.URL.Query "userName" = n)
    (hs1 : u.session = some sr) (he1 : e.FinishRegistration u sr r1 = .error msg1)
    (hu2 : st2.users n2 = some u2)
    (hm2 : r2.Method ≠ MethodOptions) (hq2 : Values.Get r2.URL.Query "userName" = n2)
    (hs2 : u2.lastLoginSession = some sl) (he2 : e.FinishLogin u2 sl r2 = .error msg2) :
    ((WebAuthnHandler.FinishRegistration lib ⟨st, e⟩ w r1).w.statusCode = 400 ∧
      (WebAuthnHandler.FinishRegistration lib ⟨st, e⟩ w r1).w.body =
        "\x7b\"error\":" ++ lib.jsonString msg1 ++ "\x7d\n" ∧
      (WebAuthnHandler.FinishRegistration lib ⟨st, e⟩ w r1).panicked = false ∧
      (WebAuthnHandler.FinishRegistration lib ⟨st, e⟩ w r1).storer = st) ∧
    ((WebAuthnHandler.FinishLogin ⟨st2, e⟩ w r2).w.statusCode = 500 ∧
      (WebAuthnHandler.FinishLogin ⟨st2, e⟩ w r2).w.body = "Error finishing login\n" ∧
      (WebAuthnHandler.FinishLogin ⟨st2, e⟩ w r2).panicked = false ∧
      (WebAuthnHandler.FinishLogin ⟨st2, e⟩ w r2).storer = st2) := by
  refine ⟨?_, ?_⟩
  · simp [WebAuthnHandler.FinishRegistration, hm1, hq1, InMemoryStorer.GetUser, hu, hs1, he1,
      respondWithError, responseWriter.Write, responseWriter.WriteHeader, StatusBadRequest]
  · simp [WebAuthnHandler.FinishLogin, handleOptionsRequest, hm2, hq2, InMemoryStorer.GetUser,
      hu2, hs2, he2, httpError, responseWriter.Write, responseWriter.WriteHeader,
      responseWriter.SetHeader, StatusInternalServerError]

/-- Witness for C5: alice has both challenges pending and the engine rejects both finish
steps. -/
theorem engine_failure_leaves_directory_witness :
    (WebAuthnHandler.FinishRegistration sampleLib ⟨afterRegisterBegin.storer, rejectingEngine⟩
        emptyWriter postRegistrationFinish).w.statusCode = 400 ∧
    (WebAuthnHandler.FinishLogin ⟨afterLoginBegin.storer, rejectingEngine⟩ emptyWriter
        postLoginFinish).storer = afterLoginBegin.storer :=
  have h := engine_failure_leaves_directory sampleLib rejectingEngine afterRegisterBegin.storer
    afterLoginBegin.storer emptyWriter "alice" "alice" aliceBegun
    { aliceBegun with lastLoginSession := some ⟨[12]⟩ } ⟨[11]⟩ ⟨[12]⟩ "challenge mismatch"
    "signature mismatch" postRegistrationFinish postLoginFinish
    (by decide) (by decide) (by decide) rfl rfl (by decide) (by decide) (by decide) rfl rfl
  ⟨h.1.1, h.2.2.2.2⟩

/-- FinishLogin on a stored user with a pending login challenge calls the engine exactly once,
with the stored record and the stored challenge, whatever the engine answers. -/
theorem finishLogin_calls (e : WebAuthn) (st : InMemoryStorer) (w : responseWriter)
    (r : Request) (n : String) (v : User) (s : SessionData)
    (hv : st.users n = some v) (hs : v.lastLoginSession = some s)
    (hm : r.Method ≠ MethodOptions) (hq : Values.Get r.URL.Query "userName" = n) :
    (WebAuthnHandler.FinishLogin ⟨st, e⟩ w r).calls = [EngineCall.finishLogin v s r] := by
  cases hfin : e.FinishLogin v s r with
  | error err =>
    simp [WebAuthnHandler.FinishLogin, handleOptionsRequest, hm, hq, InMemoryStorer.GetUser,
      hv, hs, hfin]
  | ok c =>
    cases c <;>
    simp [WebAuthnHandler.FinishLogin, handleOptionsRequest, hm, hq, InMemoryStorer.GetUser,
      hv, hs, hfin, InMemoryStorer.SaveUser]

/-- C10: for a directory (every record stored under its own name) holding user n and an engine
whose beginLogin returns session state s without error, BeginLogin for n stores s as the
pending login challenge of n, whatever it was before, leaves the id, name, displayName,
credentials and pending registration challenge of that record and every other record as they
were, and answers 200; a following FinishLogin for n calls the engine finishLogin exactly
once, with the stored record and exactly s. -/
theorem beginLogin_stores_session (lib : Lib) (eB eF : WebAuthn) (st : InMemoryStorer)
    (wB wF : responseWriter) (rB rF : Request) (n : String) (u : User)
    (opts : CredentialAssertion) (s : SessionData)
    (hwf : st.WF) (hu : st.users n = some u)
    (hmB : rB.Method ≠ MethodOptions) (hd : lib.decodeLoginRequest rB.Body = .ok ⟨n⟩)
    (he : eB.BeginLogin u = .ok (opts, some s))
    (hmF : rF.Method ≠ MethodOptions) (hq : Values.Get rF.URL.Query "userName" = n) :
    (∃ v, (WebAuthnHandler.BeginLogin lib ⟨st, eB⟩ wB rB).storer.users n = some v ∧
      v.lastLoginSession = some s ∧ v.id = u.id ∧ v.name = u.name ∧
      v.displayName = u.displayName ∧ v.credentials = u.credentials ∧ v.session = u.session ∧
      (WebAuthnHandler.FinishLogin ⟨(WebAuthnHandler.BeginLogin lib ⟨st, eB⟩ wB rB).storer, eF⟩
        wF rF).calls = [EngineCall.finishLogin v s rF]) ∧
    (∀ m : String, m ≠ n →
      (WebAuthnHandler.BeginLogin lib ⟨st, eB⟩ wB rB).storer.users m = st.users m) ∧
    (WebAuthnHandler.BeginLogin lib ⟨st, eB⟩ wB rB).w.statusCode = 200 ∧
    (WebAuthnHandler.BeginLogin lib ⟨st, eB⟩ wB rB).calls = [EngineCall.beginLogin u] := by
  have hname : u.name = n := hwf n u hu
  have hst : (WebAuthnHandler.BeginLogin lib ⟨st, eB⟩ wB rB).storer =
      (st.SaveUser { u with lastLoginSession := some s }).1 := by
    simp [WebAuthnHandler.BeginLogin, handleOptionsRequest, hmB, hd, InMemoryStorer.GetUser, hu,
      he, InMemoryStorer.SaveUser]
  have hget : (st.SaveUser { u with lastLoginSession := some s }).1.users n =
      some { u with lastLoginSession := some s } := by
    simp [InMemoryStorer.SaveUser, GoMap.set, hname]
  refine ⟨⟨{ u with lastLoginSession := some s }, ?_, rfl, rfl, rfl, rfl, rfl, rfl, ?_⟩, ?_, ?_, ?_⟩
  · rw [hst, hget]
  · rw [hst]
    exact finishLogin_calls eF _ wF rF n _ s hget rfl hmF hq
  · intro m hm
    rw [hst]
    simp [InMemoryStorer.SaveUser, GoMap.set, hname, hm]
  · simp [WebAuthnHandler.BeginLogin, handleOptionsRequest, hmB, hd, InMemoryStorer.GetUser, hu,
      he, InMemoryStorer.SaveUser, jsonEncode, responseWriter.WriteHeader, StatusOK]
    cases lib.marshalAssertion opts <;> simp [responseWriter.Write]
  · simp [WebAuthnHandler.BeginLogin, handleOptionsRequest, hmB, hd, InMemoryStorer.GetUser, hu,
      he, InMemoryStorer.SaveUser]

/-- Witness for C10: login begin for alice right after her registration begin. -/
theorem beginLogin_stores_session_witness :
    afterLoginBegin.w.statusCode = 200 ∧
    afterLoginBegin.calls = [EngineCall.beginLogin aliceBegun] :=
  (beginLogin_stores_session sampleLib sampleEngine sampleEngine afterRegisterBegin.storer
    emptyWriter emptyWriter postLoginBegin postLoginFinish "alice" aliceBegun ⟨[2]⟩ ⟨[12]⟩
    (saveUser_wf NewStorer aliceBegun newStorer_wf) (by decide) (by decide) rfl rfl
    (by decide) (by decide)).2.2

/-! ## Registration -/

theorem newUser_ok (lib : Lib) (name displayName : String) (id : List Nat)
    (h : lib.randRead 32 = .ok id) :
    NewUser lib name displayName =
      ({ id := id, name := name, displayName := displayName, session := none,
         lastLoginSession := none, credentials := [] }, none) := by
  simp [NewUser, User.generateID, h, User.zero]

theorem newUser_error (lib : Lib) (name displayName : String) (err : GoError)
    (h : lib.randRead 32 = .error err) :
    NewUser lib name displayName = (User.zero, some err) := by
  simp [NewUser, User.generateID, h]

/-- C1 (as stated) fails: on the empty directory, with an engine that accepts both steps, a
registration begin for alice followed by the matching finish answers 200 twice and stores one
credential, but the stored pending registration challenge is still the one issued by Begin,
not nil. -/
theorem register_finish_keeps_challenge :
    afterRegisterBegin.w.statusCode = 200 ∧ afterRegisterFinish.w.statusCode = 200 ∧
    afterRegisterFinish.panicked = false ∧
    ∃ u, afterRegisterFinish.storer.users "alice" = some u ∧
      u.credentials = [⟨[21]⟩] ∧ u.session = some ⟨[11]⟩ ∧ u.session ≠ none :=
  ⟨by decide, by decide, by decide,
    { aliceBegun with credentials := [⟨[21]⟩] }, by decide, rfl, rfl, by decide⟩

/-- C1 (amended): when the random source, the request decoding and the engine accept both
steps, BeginRegistration for (name, displayName) followed by FinishRegistration for that name
answers 200 twice and leaves a stored user for the name whose credential list is the list
after Begin (empty, for the newly created record) with the returned credential appended, so
exactly one longer; the pending registration challenge is not cleared: it is still the
session state the engine issued at Begin. -/
theorem register_begin_finish (lib : Lib) (eB eF : WebAuthn) (st : InMemoryStorer)
    (wB wF : responseWriter) (rB rF : Request) (name displayName : String) (id : List Nat)
    (opts : CredentialCreation) (sess : SessionData) (cred : Credential)
    (hmB : rB.Method ≠ MethodOptions)
    (hd : lib.decodeRegistrationRequest rB.Body = .ok ⟨name, displayName⟩)
    (hrand : lib.randRead 32 = .ok id)
    (hb : eB.BeginRegistration ⟨id, name, displayName, none, none, []⟩ = .ok (opts, some sess))
    (hmF : rF.Method ≠ MethodOptions) (hq : Values.Get rF.URL.Query "userName" = name)
    (hf : eF.FinishRegistration ⟨id, name, displayName, some sess, none, []⟩ sess rF =
      .ok (some cred)) :
    ∃ u1 u2,
      (WebAuthnHandler.BeginRegistration lib ⟨st, eB⟩ wB rB).storer.users name = some u1 ∧
      (WebAuthnHandler.FinishRegistration lib
        ⟨(WebAuthnHandler.BeginRegistration lib ⟨st, eB⟩ wB rB).storer, eF⟩ wF rF).storer.users
          name = some u2 ∧
      u2.credentials = u1.credentials ++ [cred] ∧
      u2.credentials.length = u1.credentials.length + 1 ∧
      u1.session = some sess ∧ u2.session = some sess ∧
      u2.id = u1.id ∧
      (WebAuthnHandler.BeginRegistration lib ⟨st, eB⟩ wB rB).w.statusCode = 200 ∧
      (WebAuthnHandler.FinishRegistration lib
        ⟨(WebAuthnHandler.BeginRegistration lib ⟨st, eB⟩ wB rB).storer, eF⟩ wF rF).w.statusCode
          = 200 ∧
      (WebAuthnHandler.FinishRegistration lib
        ⟨(WebAuthnHandler.BeginRegistration lib ⟨st, eB⟩ wB rB).storer, eF⟩ wF rF).w.body
          = "Registration Success" := by
  have hst : (WebAuthnHandler.BeginRegistration lib ⟨st, eB⟩ wB rB).storer =
      (st.SaveUser ⟨id, name, displayName, some sess, none, []⟩).1 := by
    simp [WebAuthnHandler.BeginRegistration, hmB, hd, newUser_ok lib name displayName id hrand,
      hb, InMemoryStorer.SaveUser]
  have hcode : (WebAuthnHandler.BeginRegistration lib ⟨st, eB⟩ wB rB).w.statusCode = 200 := by
    simp [WebAuthnHandler.BeginRegistration, hmB, hd, newUser_ok lib name displayName id hrand,
      hb, InMemoryStorer.SaveUser, jsonEncode, responseWriter.WriteHeader, StatusOK]
    cases lib.marshalCreation opts <;> simp [responseWriter.Write]
  have hget : (st.SaveUser ⟨id, name, displayName, some sess, none, []⟩).1.users name =
      some ⟨id, name, displayName, some sess, none, []⟩ :=
    saveUser_users_self st ⟨id, name, displayName, some sess, none, []⟩
  have hfin : ∀ st1 : InMemoryStorer,
      st1.users name = some ⟨id, name, displayName, some sess, none, []⟩ →
      (WebAuthnHandler.FinishRegistration lib ⟨st1, eF⟩ wF rF).storer.users name =
          some ⟨id, name, displayName, some sess, none, [cred]⟩ ∧
        (WebAuthnHandler.FinishRegistration lib ⟨st1, eF⟩ wF rF).w.statusCode = 200 ∧
        (WebAuthnHandler.FinishRegistration lib ⟨st1, eF⟩ wF rF).w.body =
          "Registration Success" := by
    intro st1 h1
    simp [WebAuthnHandler.FinishRegistration, hmF, hq, InMemoryStorer.GetUser, h1, hf,
      InMemoryStorer.SaveUser, GoMap.set, responseWriter.Write, responseWriter.WriteHeader,
      StatusOK]
  rw [hst]
  obtain ⟨h1, h2, h3⟩ := hfin _ hget
  exact ⟨_, _, hget, h1, rfl, rfl, rfl, rfl, rfl, hcode, h2, h3⟩

/-- Witness for C1 (amended): alice registers on the empty directory. -/
theorem register_begin_finish_witness :
    ∃ u1 u2, afterRegisterBegin.storer.users "alice" = some u1 ∧
      afterRegisterFinish.storer.users "alice" = some u2 ∧
      u2.credentials = u1.credentials ++ [⟨[21]⟩] ∧ u2.session = some ⟨[11]⟩ :=
  have h := register_begin_finish sampleLib sampleEngine sampleEngine NewStorer emptyWriter
    emptyWriter postRegistrationBegin postRegistrationFinish "alice" "Alice A"
    (List.replicate 32 7) ⟨[1]⟩ ⟨[11]⟩ ⟨[21]⟩ (by decide) rfl rfl rfl (by decide) (by decide) rfl
  match h with
  | ⟨u1, u2, a, b, c, _, _, d, _⟩ => ⟨u1, u2, a, b, c, d⟩

/-- C2: code evaluation at the failing input. Right after the registration begin for alice her
record has no pending login challenge; FinishLogin for alice then dereferences the nil
lastLoginSession and is aborted: no status code or body is written, so no error response is
produced. The engine is not called and the directory is unchanged. The same abort is reached
through the entry point: a registration begin with the empty JSON object as body stores a
user under the empty name, and a login finish event then yields no response. -/
theorem finishLogin_without_challenge_aborts :
    (∃ u, afterRegisterBegin.storer.users "alice" = some u ∧ u.lastLoginSession = none) ∧
    (WebAuthnHandler.FinishLogin ⟨afterRegisterBegin.storer, sampleEngine⟩ emptyWriter
      postLoginFinish).panicked = true ∧
    (WebAuthnHandler.FinishLogin ⟨afterRegisterBegin.storer, sampleEngine⟩ emptyWriter
      postLoginFinish).w.statusCode = 0 ∧
    (WebAuthnHandler.FinishLogin ⟨afterRegisterBegin.storer, sampleEngine⟩ emptyWriter
      postLoginFinish).w.body = "" ∧
    (WebAuthnHandler.FinishLogin ⟨afterRegisterBegin.storer, sampleEngine⟩ emptyWriter
      postLoginFinish).calls = [] ∧
    (WebAuthnHandler.FinishLogin ⟨afterRegisterBegin.storer, sampleEngine⟩ emptyWriter
      postLoginFinish).storer = afterRegisterBegin.storer ∧
    (handler sampleLib NewStorer sampleEngine gatewayRegistrationBeginEmpty).response.map
      (fun resp => resp.StatusCode) = some 200 ∧
    (handler sampleLib
      (handler sampleLib NewStorer sampleEngine gatewayRegistrationBeginEmpty).storer
      sampleEngine gatewayLoginFinish).response.isNone = true :=
  ⟨⟨aliceBegun, by decide, rfl⟩, by decide, by decide, by decide, by decide, rfl, by decide,
    by decide⟩

/-! ## Record preservation -/

/-- Saving an updated copy of a stored record that keeps its name and id and extends its
credential list preserves, for every stored name, the id and the credentials so far. -/
theorem saveUser_update_preserves (st : InMemoryStorer) (n k : String) (u v v2 : User)
    (hwf : st.WF) (hu : st.users n = some u) (hv : st.users k = some v)
    (hname : v2.name = v.name) (hid : v2.id = v.id) (hcred : v.credentials <+: v2.credentials) :
    ∃ u2, (st.SaveUser v2).1.users n = some u2 ∧ u2.id = u.id ∧
      u.credentials <+: u2.credentials := by
  have hk : v.name = k := hwf k v hv
  by_cases hnk : n = k
  · subst hnk
    have huv : u = v := Option.some.inj (hu.symm.trans hv)
    subst huv
    refine ⟨v2, ?_, hid, hcred⟩
    rw [← hk, ← hname]
    exact saveUser_users_self st v2
  · refine ⟨u, ?_, rfl, List.prefix_refl _⟩
    rw [saveUser_users_other st v2 n (by rw [hname, hk]; exact hnk)]
    exact hu

theorem finishRegistration_preserves (lib : Lib) (e : WebAuthn) (st : InMemoryStorer)
    (w : responseWriter) (r : Request) (n : String) (u : User)
    (hwf : st.WF) (hu : st.users n = some u) :
    ∃ u2, (WebAuthnHandler.FinishRegistration lib ⟨st, e⟩ w r).storer.users n = some u2 ∧
      u2.id = u.id ∧ u.credentials <+: u2.credentials := by
  by_cases hm : r.Method = MethodOptions
  · exact ⟨u, by simp [WebAuthnHandler.FinishRegistration, hm, hu], rfl, List.prefix_refl _⟩
  · cases hg : st.users (Values.Get r.URL.Query "userName") with
    | none =>
      exact ⟨u, by simp [WebAuthnHandler.FinishRegistration, hm, InMemoryStorer.GetUser, hg, hu],
        rfl, List.prefix_refl _⟩
    | some v =>
      cases hs : v.session with
      | none =>
        exact ⟨u, by simp [WebAuthnHandler.FinishRegistration, hm, InMemoryStorer.GetUser, hg,
          hs, hu], rfl, List.prefix_refl _⟩
      | some sess =>
        cases he : e.FinishRegistration v sess r with
        | error err =>
          exact ⟨u, by simp [WebAuthnHandler.FinishRegistration, hm, InMemoryStorer.GetUser, hg,
            hs, he, hu], rfl, List.prefix_refl _⟩
        | ok c =>
          cases c with
          | none =>
            exact ⟨u, by simp [WebAuthnHandler.FinishRegistration, hm, InMemoryStorer.GetUser,
              hg, hs, he, hu], rfl, List.prefix_refl _⟩
          | some cred =>
            have hst : (WebAuthnHandler.FinishRegistration lib ⟨st, e⟩ w r).storer =
                (st.SaveUser { v with credentials := v.credentials ++ [cred] }).1 := by
              simp [WebAuthnHandler.FinishRegistration, hm, InMemoryStorer.GetUser, hg, hs, he,
                InMemoryStorer.SaveUser]
            rw [hst]
            exact saveUser_update_preserves st n _ u v _ hwf hu hg rfl rfl
              (List.prefix_append _ _)

theorem finishLogin_preserves (e : WebAuthn) (st : InMemoryStorer)
    (w : responseWriter) (r : Request) (n : String) (u : User)
    (hwf : st.WF) (hu : st.users n = some u) :
    ∃ u2, (WebAuthnHandler.FinishLogin ⟨st, e⟩ w r).storer.users n = some u2 ∧
      u2.id = u.id ∧ u.credentials <+: u2.credentials := by
  by_cases hm : r.Method = MethodOptions
  · exact ⟨u, by simp [WebAuthnHandler.FinishLogin, handleOptionsRequest, hm, hu], rfl,
      List.prefix_refl _⟩
  · cases hg : st.users (Values.Get r.URL.Query "userName") with
    | none =>
      exact ⟨u, by simp [WebAuthnHandler.FinishLogin, handleOptionsRequest, hm,
        InMemoryStorer.GetUser, hg, hu], rfl, List.prefix_refl _⟩
    | some v =>
      cases hs : v.lastLoginSession with
      | none =>
        exact ⟨u, by simp [WebAuthnHandler.FinishLogin, handleOptionsRequest, hm,
          InMemoryStorer.GetUser, hg, hs, hu], rfl, List.prefix_refl _⟩
      | some sess =>
        cases he : e.FinishLogin v sess r with
        | error err =>
          exact ⟨u, by simp [WebAuthnHandler.FinishLogin, handleOptionsRequest, hm,
            InMemoryStorer.GetUser, hg, hs, he, hu], rfl, List.prefix_refl _⟩
        | ok c =>
          cases c with
          | none =>
            exact ⟨u, by simp [WebAuthnHandler.FinishLogin, handleOptionsRequest, hm,
              InMemoryStorer.GetUser, hg, hs, he, hu], rfl, List.prefix_refl _⟩
          | some cred =>
            have hst : (WebAuthnHandler.FinishLogin ⟨st, e⟩ w r).storer =
                (st.SaveUser { v with credentials := v.credentials ++ [cred] }).1 := by
              simp [WebAuthnHandler.FinishLogin, handleOptionsRequest, hm,
                InMemoryStorer.GetUser, hg, hs, he, InMemoryStorer.SaveUser]
            rw [hst]
            exact saveUser_update_preserves st n _ u v _ hwf hu hg rfl rfl
              (List.prefix_append _ _)

theorem beginLogin_preserves (lib : Lib) (e : WebAuthn) (st : InMemoryStorer)
    (w : responseWriter) (r : Request) (n : String) (u : User)
    (hwf : st.WF) (hu : st.users n = some u) :
    ∃ u2, (WebAuthnHandler.BeginLogin lib ⟨st, e⟩ w r).storer.users n = some u2 ∧
      u2.id = u.id ∧ u.credentials <+: u2.credentials := by
  by_cases hm : r.Method = MethodOptions
  · exact ⟨u, by simp [WebAuthnHandler.BeginLogin, handleOptionsRequest, hm, hu], rfl,
      List.prefix_refl _⟩
  · cases hd : lib.decodeLoginRequest r.Body with
    | error err =>
      exact ⟨u, by simp [WebAuthnHandler.BeginLogin, handleOptionsRequest, hm, hd, hu], rfl,
        List.prefix_refl _⟩
    | ok request =>
      cases hg : st.users request.Name with
      | none =>
        exact ⟨u, by simp [WebAuthnHandler.BeginLogin, handleOptionsRequest, hm, hd,
          InMemoryStorer.GetUser, hg, hu], rfl, List.prefix_refl _⟩
      | some v =>
        cases he : e.BeginLogin v with
        | error err =>
          exact ⟨u, by simp [WebAuthnHandler.BeginLogin, handleOptionsRequest, hm, hd,
            InMemoryStorer.GetUser, hg, he, hu], rfl, List.prefix_refl _⟩
        | ok res =>
          obtain ⟨options, session⟩ := res
          have hst : (WebAuthnHandler.BeginLogin lib ⟨st, e⟩ w r).storer =
              (st.SaveUser { v with lastLoginSession := session }).1 := by
            simp [WebAuthnHandler.BeginLogin, handleOptionsRequest, hm, hd,
              InMemoryStorer.GetUser, hg, he, InMemoryStorer.SaveUser]
          rw [hst]
          exact saveUser_update_preserves st n _ u v _ hwf hu hg rfl rfl (List.prefix_refl _)

/-- What BeginRegistration does to the record of an existing name: it is left alone, or the
request names it and the id generation and the engine step succeed, and the record is
replaced by the newly created one. -/
theorem beginRegistration_record (lib : Lib) (e : WebAuthn) (st : InMemoryStorer)
    (w : responseWriter) (r : Request) (n : String) (u : User)
    (hu : st.users n = some u) :
    (WebAuthnHandler.BeginRegistration lib ⟨st, e⟩ w r).storer.users n = some u ∨
    ∃ (displayName : String) (id : List Nat) (opts : CredentialCreation)
      (session : Option SessionData),
      r.Method ≠ MethodOptions ∧
      lib.decodeRegistrationRequest r.Body = .ok ⟨n, displayName⟩ ∧
      lib.randRead 32 = .ok id ∧
      e.BeginRegistration ⟨id, n, displayName, none, none, []⟩ = .ok (opts, session) ∧
      (WebAuthnHandler.BeginRegistration lib ⟨st, e⟩ w r).storer.users n =
        some ⟨id, n, displayName, session, none, []⟩ := by
  by_cases hm : r.Method = MethodOptions
  · exact Or.inl (by simp [WebAuthnHandler.BeginRegistration, hm, hu])
  · cases hd : lib.decodeRegistrationRequest r.Body with
    | error err => exact Or.inl (by simp [WebAuthnHandler.BeginRegistration, hm, hd, hu])
    | ok request =>
      obtain ⟨name, displayName⟩ := request
      cases hr : lib.randRead 32 with
      | error err =>
        exact Or.inl (by simp [WebAuthnHandler.BeginRegistration, hm, hd,
          newUser_error lib name displayName err hr, hu])
      | ok id =>
        cases he : e.BeginRegistration ⟨id, name, displayName, none, none, []⟩ with
        | error err =>
          exact Or.inl (by simp [WebAuthnHandler.BeginRegistration, hm, hd,
            newUser_ok lib name displayName id hr, he, hu])
        | ok res =>
          obtain ⟨options, session⟩ := res
          have hst : (WebAuthnHandler.BeginRegistration lib ⟨st, e⟩ w r).storer =
              (st.SaveUser ⟨id, name, displayName, session, none, []⟩).1 := by
            simp [WebAuthnHandler.BeginRegistration, hm, hd,
              newUser_ok lib name displayName id hr, he, InMemoryStorer.SaveUser]
          by_cases hn : n = name
          · subst hn
            refine Or.inr ⟨displayName, id, options, session, hm, rfl, rfl, he, ?_⟩
            rw [hst]
            exact saveUser_users_self st ⟨id, n, displayName, session, none, []⟩
          · refine Or.inl ?_
            rw [hst, saveUser_users_other st _ n hn]
            exact hu

/-- C3 (as stated) fails: alice is registered with one credential; a second registration begin
request for alice replaces her record by a new one with another id and no credentials. -/
theorem beginRegistration_replaces_record :
    ∃ u u2, afterRegisterFinish.storer.users "alice" = some u ∧
      afterSecondRegisterBegin.storer.users "alice" = some u2 ∧
      afterSecondRegisterBegin.w.statusCode = 200 ∧
      u.credentials = [⟨[21]⟩] ∧ u2.credentials = [] ∧
      u2.id ≠ u.id ∧ ¬ (u.credentials <+: u2.credentials) :=
  ⟨{ aliceBegun with credentials := [⟨[21]⟩] },
    { aliceBegun with id := List.replicate 32 9 }, by decide, by decide, by decide, rfl, rfl,
    by decide, by decide⟩

/-- C3 (amended): in a directory where every record is stored under its own name, a single call
of FinishRegistration, BeginLogin or FinishLogin, with any request and any engine outcome,
leaves under every stored name n a record with the same id and a credential list that extends
the previous one. A call of BeginRegistration either leaves the record under n as it was, or
its request names n and the id generation and the engine step succeed, and then the record
under n is replaced by the newly created one: generated id, no credentials, no pending login
challenge. -/
theorem record_preserved_except_reregistration (lib : Lib) (e : WebAuthn) (st : InMemoryStorer)
    (w : responseWriter) (r : Request) (n : String) (u : User)
    (hwf : st.WF) (hu : st.users n = some u) :
    (∃ u2, (WebAuthnHandler.FinishRegistration lib ⟨st, e⟩ w r).storer.users n = some u2 ∧
      u2.id = u.id ∧ u.credentials <+: u2.credentials) ∧
    (∃ u2, (WebAuthnHandler.BeginLogin lib ⟨st, e⟩ w r).storer.users n = some u2 ∧
      u2.id = u.id ∧ u.credentials <+: u2.credentials) ∧
    (∃ u2, (WebAuthnHandler.FinishLogin ⟨st, e⟩ w r).storer.users n = some u2 ∧
      u2.id = u.id ∧ u.credentials <+: u2.credentials) ∧
    ((WebAuthnHandler.BeginRegistration lib ⟨st, e⟩ w r).storer.users n = some u ∨
      ∃ (displayName : String) (id : List Nat) (opts : CredentialCreation)
        (session : Option SessionData),
        r.Method ≠ MethodOptions ∧
        lib.decodeRegistrationRequest r.Body = .ok ⟨n, displayName⟩ ∧
        lib.randRead 32 = .ok id ∧
        e.BeginRegistration ⟨id, n, displayName, none, none, []⟩ = .ok (opts, session) ∧
        (WebAuthnHandler.BeginRegistration lib ⟨st, e⟩ w r).storer.users n =
          some ⟨id, n, displayName, session, none, []⟩) :=
  ⟨finishRegistration_preserves lib e st w r n u hwf hu,
    beginLogin_preserves lib e st w r n u hwf hu,
    finishLogin_preserves e st w r n u hwf hu,
    beginRegistration_record lib e st w r n u hu⟩

/-- Witness for C3 (amended): the registration finish request for alice, on the directory
left by her registration begin. -/
theorem record_preserved_except_reregistration_witness :
    ∃ u2, afterRegisterFinish.storer.users "alice" = some u2 ∧
      u2.id = aliceBegun.id ∧ aliceBegun.credentials <+: u2.credentials :=
  (record_preserved_except_reregistration sampleLib sampleEngine afterRegisterBegin.storer
    emptyWriter postRegistrationFinish "alice" aliceBegun
    (saveUser_wf NewStorer aliceBegun newStorer_wf) (by decide)).1

/-! ## Entry point -/

/-- The gateway event of an OPTIONS request to the given path. -/
def optionsEvent (path : String) (query : GoMap String) (body : String) :
    APIGatewayProxyRequest :=
  { Path := path, HTTPMethod := "OPTIONS", QueryStringParameters := query, Body := body }

/-- A gateway reply with status 200 and an empty body whose header map holds Content-Type
application/json and none of the three CORS headers. -/
def GatewayOutcome.plainOkWithoutCors (o : GatewayOutcome) : Prop :=
  ∃ resp, o.response = some resp ∧ resp.StatusCode = 200 ∧ resp.Body = "" ∧
    resp.Headers "Content-Type" = some "application/json" ∧
    resp.Headers "Access-Control-Allow-Origin" = none ∧
    resp.Headers "Access-Control-Allow-Methods" = none ∧
    resp.Headers "Access-Control-Allow-Headers" = none

/-- The entry point never reads the query string parameters of the gateway event. -/
theorem handler_ignores_query (lib : Lib) (st : InMemoryStorer) (e : WebAuthn)
    (req : APIGatewayProxyRequest) (query : GoMap String) :
    handler lib st e { req with QueryStringParameters := query } = handler lib st e req := rfl

/-- Every route handler sets the three CORS headers on its response writer before anything
else; shown here for the OPTIONS short cut of BeginRegistration. -/
theorem options_writer_has_cors (lib : Lib) (h : WebAuthnHandler) (w : responseWriter)
    (r : Request) (hm : r.Method = MethodOptions) :
    (WebAuthnHandler.BeginRegistration lib h w r).w.headers "Access-Control-Allow-Origin" =
        some ["*"] ∧
    (WebAuthnHandler.BeginRegistration lib h w r).w.headers "Access-Control-Allow-Methods" =
        some ["POST, OPTIONS"] ∧
    (WebAuthnHandler.BeginRegistration lib h w r).w.headers "Access-Control-Allow-Headers" =
        some ["Content-Type"] := by
  simp [WebAuthnHandler.BeginRegistration, hm, setCorsHeaders, responseWriter.SetHeader,
    responseWriter.WriteHeader, GoMap.set]

/-- C6: code evaluation at the failing inputs. For an OPTIONS request to each of the four
routes, with any directory, engine, query and body, the entry point answers 200 with an empty
body and leaves the directory unchanged, but the returned header map is the fixed one holding
only Content-Type: the three CORS headers the route handler set on its writer are not in
the response. -/
theorem options_response_lacks_cors (lib : Lib) (st : InMemoryStorer) (e : WebAuthn)
    (query : GoMap String) (body : String) :
    ((handler lib st e (optionsEvent "/webauthn/registration/begin" query body)).plainOkWithoutCors
      ∧ (handler lib st e (optionsEvent "/webauthn/registration/begin" query body)).storer = st) ∧
    ((handler lib st e (optionsEvent "/webauthn/registration/finish" query body)).plainOkWithoutCors
      ∧ (handler lib st e (optionsEvent "/webauthn/registration/finish" query body)).storer = st)
    ∧
    ((handler lib st e (optionsEvent "/webauthn/login/begin" query body)).plainOkWithoutCors
      ∧ (handler lib st e (optionsEvent "/webauthn/login/begin" query body)).storer = st) ∧
    ((handler lib st e (optionsEvent "/webauthn/login/finish" query body)).plainOkWithoutCors
      ∧ (handler lib st e (optionsEvent "/webauthn/login/finish" query body)).storer = st) := by
  refine ⟨⟨?_, ?_⟩, ⟨?_, ?_⟩, ⟨?_, ?_⟩, ⟨?_, ?_⟩⟩ <;>
  simp [GatewayOutcome.plainOkWithoutCors, handler, setupRoutes, optionsEvent, GoMap.set,
    GoMap.empty, WebAuthnHandler.BeginRegistration, WebAuthnHandler.FinishRegistration,
    WebAuthnHandler.BeginLogin, WebAuthnHandler.FinishLogin, handleOptionsRequest,
    MethodOptions, StatusOK, responseWriter.WriteHeader, setCorsHeaders,
    responseWriter.SetHeader]

/-- C7: code evaluation at the failing inputs. Alice has a pending registration challenge and
the engine accepts; the route handler called with the query userName=alice answers 200 with
the success text. The same request arriving as a gateway event with userName=alice among its
query string parameters is answered 400 user not found without calling the engine, because
the entry point builds the request URL from the path alone and the lookup is made for the
empty name. The login finish route answers 404 in the same way. -/
theorem gateway_drops_userName :
    gatewayRegistrationFinish.QueryStringParameters "userName" = some "alice" ∧
    afterRegisterFinish.w.statusCode = 200 ∧
    afterRegisterFinish.w.body = "Registration Success" ∧
    (∃ resp, (handler sampleLib afterRegisterBegin.storer sampleEngine
        gatewayRegistrationFinish).response = some resp ∧
      resp.StatusCode = 400 ∧ resp.Body = "\x7b\"error\":\"user not found\"\x7d\n") ∧
    (handler sampleLib afterRegisterBegin.storer sampleEngine
      gatewayRegistrationFinish).calls = [] ∧
    (handler sampleLib afterRegisterBegin.storer sampleEngine
      gatewayRegistrationFinish).storer.users "alice" = some aliceBegun ∧
    gatewayLoginFinish.QueryStringParameters "userName" = some "alice" ∧
    (WebAuthnHandler.FinishLogin ⟨afterLoginBegin.storer, sampleEngine⟩ emptyWriter
      postLoginFinish).w.statusCode = 200 ∧
    (∃ resp, (handler sampleLib afterLoginBegin.storer sampleEngine
        gatewayLoginFinish).response = some resp ∧
      resp.StatusCode = 404 ∧ resp.Body = "User not found\n") ∧
    (handler sampleLib afterLoginBegin.storer sampleEngine gatewayLoginFinish).calls = [] :=
  ⟨by decide, by decide, by decide, ⟨_, rfl, by decide, by decide⟩, by decide, by decide,
    by decide, by decide, ⟨_, rfl, by decide, by decide⟩, by decide⟩

/-! ## The directory invariant is kept by every route handler -/

theorem routes_keep_wf (lib : Lib) (e : WebAuthn) (st : InMemoryStorer) (w : responseWriter)
    (r : Request) (hwf : st.WF) :
    (WebAuthnHandler.BeginRegistration lib ⟨st, e⟩ w r).storer.WF ∧
    (WebAuthnHandler.FinishRegistration lib ⟨st, e⟩ w r).storer.WF ∧
    (WebAuthnHandler.BeginLogin lib ⟨st, e⟩ w r).storer.WF ∧
    (WebAuthnHandler.FinishLogin ⟨st, e⟩ w r).storer.WF := by
  have key : ∀ s2 : InMemoryStorer,
      (s2 = st ∨ ∃ k x, x.name = k ∧ s2 = { users := st.users.set k x }) → s2.WF := by
    intro s2 h
    rcases h with h | ⟨k, x, hk, h⟩
    · rw [h]; exact hwf
    · rw [h, ← hk]; exact saveUser_wf st x hwf
  refine ⟨key _ ?_, key _ ?_, key _ ?_, key _ ?_⟩
  · unfold WebAuthnHandler.BeginRegistration
    simp only [InMemoryStorer.SaveUser]
    repeat' split
    all_goals first | exact Or.inl rfl | (refine Or.inr ⟨_, _, ?_, rfl⟩; rfl)
  · unfold WebAuthnHandler.FinishRegistration
    simp only [InMemoryStorer.SaveUser]
    repeat' split
    all_goals first | exact Or.inl rfl | (refine Or.inr ⟨_, _, ?_, rfl⟩; rfl)
  · unfold WebAuthnHandler.BeginLogin
    simp only [InMemoryStorer.SaveUser]
    repeat' split
    all_goals first | exact Or.inl rfl | (refine Or.inr ⟨_, _, ?_, rfl⟩; rfl)
  · unfold WebAuthnHandler.FinishLogin
    simp only [InMemoryStorer.SaveUser]
    repeat' split
    all_goals first | exact Or.inl rfl | (refine Or.inr ⟨_, _, ?_, rfl⟩; rfl)

end WebAuthnApi
